import Mathlib

/-!
Formal model of the YunoHost migration orchestration engine, shallowly
embedded from `src/yunohost/tools.py` (migrations management section) and
the `Migration` base class (including the `ldap_migration` backup/rollback
wrapper).

Conventions of the embedding:
* Python dictionaries are association lists with insert-or-update semantics
  (`setKey`), preserving insertion order like Python dicts.
* The persisted YAML state file is `Option StateFile` (`none` = file absent).
* Exceptions are modelled with `Except`: `YunohostValidationError` values
  are raised errors; functions that cannot raise return plain values.
* The localized-message subsystem (`m18n.n`) is opaque: log calls are
  recorded as `LogEvent` values carrying the message key's parameters.
* A migration's externally-supplied `run()` body is modelled by a boolean
  field `runOk` (`true` = returns normally, `false` = raises); the engine
  never inspects anything else about the body.
-/

namespace YnhMigrations

/-! ## Migration descriptors (`Migration.__init__`, class attributes) -/

/-- Class-level attributes of a concrete `MyMigration` class: everything the
module supplies beyond the id (the id comes from the filename). `runOk`
models whether the externally-supplied `run()` body returns normally. -/
structure MigAttrs where
  mode : String := "auto"
  dependencies : List String := []
  disclaimer : Option String := none
  runOk : Bool := true
deriving Repr, DecidableEq

/-- Split a character list at the first underscore: the part before it and,
when an underscore is present, the part after it. -/
def breakAtUnderscore : List Char → List Char × Option (List Char)
  | [] => ([], none)
  | c :: cs =>
    if c = '_' then ([], some cs)
    else
      let r := breakAtUnderscore cs
      (c :: r.1, r.2)

/-- First component of `id.split("_")[0]` / `id.split("_", 1)[0]` (both give
the text before the first underscore). -/
def idFirstPart (id : String) : String :=
  ⟨(breakAtUnderscore id.data).1⟩

/-- Python `id.split("_", 1)[1]`: everything after the first underscore
(ids produced by discovery always contain one; absent an underscore the
Python indexing would raise, modelled as the empty string). -/
def idName (id : String) : String :=
  ⟨((breakAtUnderscore id.data).2).getD []⟩

/-- Python `int(s)` on a plain digit string. -/
def parseNat? (cs : List Char) : Option Nat :=
  if !cs.isEmpty && cs.all Char.isDigit then
    some (cs.foldl (fun n c => n * 10 + (c.toNat - 48)) 0)
  else none

/-- Python `int(id.split("_", 1)[0])`: the integer ordinal prefix (always a
digit string for discovered ids; a failing parse, which would raise in
Python, is modelled as 0). -/
def idNumber (id : String) : Nat :=
  (parseNat? (idFirstPart id).data).getD 0

/-- Runtime view of one migration: the descriptor constructed by
`Migration.__init__` plus class attributes, joined with its resolved state
(as `_get_migrations_list` sets `m.state`). -/
structure Migration where
  id : String
  number : Nat
  name : String
  mode : String
  dependencies : List String
  disclaimer : Option String
  runOk : Bool
  state : String
deriving Repr, DecidableEq

/-- Build the runtime view for id `id` with attributes `a` and state `st`
(mirrors `Migration.__init__` plus the `m.state` assignment). -/
def mkMigration (id : String) (a : MigAttrs) (st : String) : Migration :=
  { id := id
    number := idNumber id
    name := idName id
    mode := a.mode
    dependencies := a.dependencies
    disclaimer := a.disclaimer
    runOk := a.runOk
    state := st }

/-- Python truthiness of `migration.disclaimer` (None or empty string are
falsy). -/
def disclaimerNonEmpty (m : Migration) : Bool :=
  match m.disclaimer with
  | none => false
  | some d => d ≠ ""

/-! ## State store (`tools_migrations_state`, `_write_migration_state`) -/

/-- Contents of the YAML file at `MIGRATIONS_STATE_PATH`:
a dictionary with a `migrations` key mapping migration id to state. -/
structure StateFile where
  migrations : List (String × String)
deriving Repr, DecidableEq

/-- Dictionary lookup on an association list. -/
def lookupState (l : List (String × String)) (k : String) : Option String :=
  (l.find? (fun e => e.1 == k)).map (·.2)

/-- Python dict assignment `d[k] = v`: update in place if the key exists,
append otherwise. -/
def setKey : List (String × String) → String → String → List (String × String)
  | [], k, v => [(k, v)]
  | (k', v') :: rest, k, v =>
      if k' == k then (k, v) :: rest else (k', v') :: setKey rest k v

/-- `tools_migrations_state`: read the persisted file; a missing file is the
empty mapping. -/
def tools_migrations_state (file : Option StateFile) : StateFile :=
  match file with
  | none => { migrations := [] }
  | some f => f

/-- `_write_migration_state`: re-read the current persisted states, set one
key, write the whole structure back. -/
def _write_migration_state (file : Option StateFile) (id st : String) : StateFile :=
  let current_states := tools_migrations_state file
  { current_states with migrations := setKey current_states.migrations id st }

/-! ## Registry / loader (`_get_migrations_list`) -/

/-- Character class `[a-zA-Z0-9_]`. -/
def isWordChar (c : Char) : Bool :=
  c.isAlpha || c.isDigit || c == '_'

/-- Filename with its trailing `".py"` removed (`x[:-len(".py")]`). -/
def pyStem (s : String) : String :=
  ⟨s.data.take (s.data.length - 3)⟩

/-- Whether the filename ends in `".py"`. -/
def hasPySuffix (s : String) : Bool :=
  s.data.drop (s.data.length - 3) == ['.', 'p', 'y']

/-- The discovery filename pattern `^\d+_[a-zA-Z0-9_]+\.py$`. -/
def matchesMigrationRegex (s : String) : Bool :=
  hasPySuffix s &&
  (let stem := (pyStem s).data
   let ds := stem.takeWhile Char.isDigit
   match stem.drop ds.length with
   | '_' :: tl => !ds.isEmpty && !tl.isEmpty && tl.all isWordChar
   | _ => false)

/-- Lexicographic comparison of character lists by code point. -/
def charListLe : List Char → List Char → Bool
  | [], _ => true
  | _ :: _, [] => false
  | a :: as, b :: bs =>
    if a < b then true
    else if b < a then false
    else charListLe as bs

/-- Python's `<=` on strings: lexicographic by code point. -/
def pyStrLe (a b : String) : Bool :=
  charListLe a.data b.data

/-- The sort key order used by `sorted(migrations, key=lambda m: m.id)`. -/
def migIdLe (a b : Migration) : Prop :=
  pyStrLe a.id b.id = true

instance : DecidableRel migIdLe := fun a b => by
  unfold migIdLe
  infer_instance

/-- `_get_migrations_list`: filter the directory listing by the filename
pattern, load each matching module (`files` pairs each filename with the
attributes its module defines), set `m.state` from the persisted states
(absent key means `"pending"`), and return `sorted(migrations, key=lambda
m: m.id)` (a stable sort on the id string). -/
def _get_migrations_list (files : List (String × MigAttrs))
    (stateFile : Option StateFile) : List Migration :=
  let states := (tools_migrations_state stateFile).migrations
  let migs := (files.filter (fun f => matchesMigrationRegex f.1)).map
    (fun f =>
      let id := pyStem f.1
      mkMigration id f.2 ((lookupState states id).getD "pending"))
  migs.insertionSort migIdLe

/-! ## Validation errors and log events -/

/-- The `YunohostValidationError` message keys raised by the migrations
code, with their parameters. -/
inductive YnhValidationError where
  | migrationsListConflictPendingDone
  | migrationsNoSuchMigration (target : String)
  | migrationsExclusiveOptions
  | migrationsMustProvideExplicitTargets
  | migrationsNotPendingCantSkip (ids : List String)
  | migrationsPendingCantRerun (ids : List String)
  | migrationsAlreadyRan (ids : List String)
deriving Repr, DecidableEq

/-- Messages logged by the run loop (warnings, errors, info), identified by
their message keys and parameters. -/
inductive LogEvent where
  | noMigrationsToRun
  | toBeRanManually (id : String)
  | dependenciesNotSatisfied (id : String) (deps : List String)
  | needToAcceptDisclaimer (id : String)
  | skipMigration (id : String)
  | runningForward (id : String)
  | migrationHasFailed (id : String)
  | successForward (id : String)
deriving Repr, DecidableEq

/-! ## Target resolution (`get_matching_migration`) -/

/-- The match condition of `get_matching_migration`: target equals the id,
the name, or the ordinal prefix `m.id.split("_")[0]`. -/
def matchesTarget (m : Migration) (target : String) : Bool :=
  m.id == target || m.name == target || idFirstPart m.id == target

/-- `get_matching_migration`: scan `all_migrations` in order and return the
first migration matching the target; raise
`migrations_no_such_migration` when none matches. -/
def get_matching_migration (all : List Migration) (target : String) :
    Except YnhValidationError Migration :=
  match all.find? (fun m => matchesTarget m target) with
  | some m => .ok m
  | none => .error (.migrationsNoSuchMigration target)

/-! ## Listing (`tools_migrations_list`) -/

/-- One entry of the dictionary list built by `tools_migrations_list`
(`description` is the opaque localized lookup, modelled by its key). -/
structure MigListItem where
  id : String
  number : Nat
  name : String
  mode : String
  state : String
  description : String
  disclaimer : Option String
deriving Repr, DecidableEq

/-- The dictionary built for one migration by `tools_migrations_list`. -/
def toDict (m : Migration) : MigListItem :=
  { id := m.id
    number := m.number
    name := m.name
    mode := m.mode
    state := m.state
    description := "migration_description_" ++ m.id
    disclaimer := m.disclaimer }

/-- `tools_migrations_list`: reject `pending ∧ done`, reduce the migrations
to dictionaries, then filter (`done` keeps state ≠ pending, `pending`
keeps state = pending). -/
def tools_migrations_list (migs : List Migration) (pending done : Bool) :
    Except YnhValidationError (List MigListItem) :=
  if pending && done then
    .error .migrationsListConflictPendingDone
  else
    let items := migs.map toDict
    let items :=
      if pending || done then
        let items := if done then items.filter (fun m => m.state != "pending") else items
        let items := if pending then items.filter (fun m => m.state == "pending") else items
        items
      else items
    .ok items

/-! ## Execution engine (`tools_migrations_run`) -/

/-- Mutable context threaded through the run loop:
* `memStates` — the in-memory `m.state` attribute of every loaded
  migration object (mutated by `migration.state = ...` assignments and read
  by the dependency check);
* `stateFile` — the persisted store, written through
  `_write_migration_state`;
* `uow` — operation-logger records, one per started unit of work, paired
  with whether it was closed as a success;
* `executed` — ids whose `run()` body was invoked, in order;
* `events` — logged messages, in order. -/
structure RunLog where
  memStates : List (String × String)
  stateFile : Option StateFile
  uow : List (String × Bool)
  executed : List String
  events : List LogEvent
deriving Repr, DecidableEq

/-- Current in-memory state of the migration object with id `id`. -/
def getState (s : RunLog) (id : String) : String :=
  (lookupState s.memStates id).getD "pending"

/-- The `skip` branch of the loop body: warn, set the object's state to
skipped, persist it, close the unit of work successfully. -/
def doSkip (s : RunLog) (m : Migration) : RunLog :=
  { s with
    events := s.events ++ [.skipMigration m.id]
    memStates := setKey s.memStates m.id "skipped"
    stateFile := some (_write_migration_state s.stateFile m.id "skipped")
    uow := s.uow ++ [(m.id, true)] }

/-- The execute branch of the loop body: invoke `run()`; on success mark
done and persist; on a raised error log it and close the unit of work as
failed, leaving every state untouched. -/
def doRun (s : RunLog) (m : Migration) : RunLog :=
  if m.runOk then
    { s with
      events := s.events ++ [.runningForward m.id, .successForward m.id]
      executed := s.executed ++ [m.id]
      memStates := setKey s.memStates m.id "done"
      stateFile := some (_write_migration_state s.stateFile m.id "done")
      uow := s.uow ++ [(m.id, true)] }
  else
    { s with
      events := s.events ++ [.runningForward m.id, .migrationHasFailed m.id]
      executed := s.executed ++ [m.id]
      uow := s.uow ++ [(m.id, false)] }

/-- One iteration of the `for migration in targets` loop. The pair carries
the run log and the current value of the (mutated) `accept_disclaimer`
flag. Dependency resolution goes through `get_matching_migration` and can
raise, which propagates out of the loop. -/
def runStep (all : List Migration) (skip auto : Bool)
    (acc : RunLog × Bool) (m : Migration) :
    Except YnhValidationError (RunLog × Bool) :=
  let s := acc.1
  let accept := acc.2
  if auto && m.mode == "manual" then
    .ok ({ s with events := s.events ++ [.toBeRanManually m.id] }, accept)
  else if skip then
    -- with skip set, the dependency check and the disclaimer gate are both
    -- bypassed and the migration is marked skipped
    .ok (doSkip s m, accept)
  else
    match m.dependencies.mapM (get_matching_migration all) with
    | .error e => .error e
    | .ok deps =>
      let pendingDeps :=
        (deps.filter (fun d => getState s d.id == "pending")).map (·.id)
      if !pendingDeps.isEmpty then
        .ok ({ s with events := s.events ++ [.dependenciesNotSatisfied m.id pendingDeps] },
             accept)
      else if disclaimerNonEmpty m && !accept then
        .ok ({ s with events := s.events ++ [.needToAcceptDisclaimer m.id] }, accept)
      else
        -- the acceptance flag only works for the first migration that
        -- carries a disclaimer: it is cleared once consumed
        let accept' := if disclaimerNonEmpty m then false else accept
        .ok (doRun s m, accept')

/-- The `for migration in targets` loop itself. -/
def runLoop (all : List Migration) (skip auto : Bool) :
    List Migration → RunLog × Bool → Except YnhValidationError (RunLog × Bool)
  | [], acc => .ok acc
  | m :: rest, acc =>
    match runStep all skip auto acc m with
    | .error e => .error e
    | .ok acc' => runLoop all skip auto rest acc'

/-- Resolution of explicit targets (`[get_matching_migration(t) for t in
targets]`). -/
def resolveTargets (all : List Migration) (targets : List String) :
    Except YnhValidationError (List Migration) :=
  targets.mapM (get_matching_migration all)

/-- Validation of resolved explicit targets against the `skip` /
`force_rerun` flags. -/
def validateExplicit (skip force_rerun : Bool) (ts : List Migration) :
    Except YnhValidationError (List Migration) :=
  let doneIds := (ts.filter (fun t => t.state != "pending")).map (·.id)
  let pendingIds := (ts.filter (fun t => t.state == "pending")).map (·.id)
  if skip && !doneIds.isEmpty then
    .error (.migrationsNotPendingCantSkip doneIds)
  else if force_rerun && !pendingIds.isEmpty then
    .error (.migrationsPendingCantRerun pendingIds)
  else if !(skip || force_rerun) && !doneIds.isEmpty then
    .error (.migrationsAlreadyRan doneIds)
  else
    .ok ts

/-- Target selection: empty targets default to all pending migrations
(rejecting `skip`/`force_rerun`); explicit targets are resolved and then
validated. -/
def selectTargets (all : List Migration) (targets : List String)
    (skip force_rerun : Bool) : Except YnhValidationError (List Migration) :=
  if targets.isEmpty then
    if skip || force_rerun then .error .migrationsMustProvideExplicitTargets
    else .ok (all.filter (fun m => m.state == "pending"))
  else
    match resolveTargets all targets with
    | .error e => .error e
    | .ok ts => validateExplicit skip force_rerun ts

/-- Lookup of one migration id in a persisted store (absent file or absent
key both read back as `none`). -/
def fileLookup (f : Option StateFile) (id : String) : Option String :=
  lookupState (tools_migrations_state f).migrations id

/-- Numeric value of a boolean flag (Python `auto + skip + force_rerun`). -/
def b2n (b : Bool) : Nat := if b then 1 else 0

/-- Initial run log: in-memory states as loaded, persisted store as given,
nothing executed, recorded or logged yet. -/
def initRunLog (all : List Migration) (stateFile : Option StateFile) : RunLog :=
  { memStates := all.map (fun m => (m.id, m.state))
    stateFile := stateFile
    uow := []
    executed := []
    events := [] }

/-- Result of a completed `tools_migrations_run` call: the final run log,
and whether the call returned early on an empty target set. -/
structure RunResult where
  log : RunLog
  nothingToDo : Bool
deriving Repr, DecidableEq

/-- `tools_migrations_run`: flag-exclusivity check, target selection and
validation, early return when there is nothing to do, then the run loop. -/
def tools_migrations_run (all : List Migration) (stateFile : Option StateFile)
    (targets : List String) (skip auto force_rerun accept_disclaimer : Bool) :
    Except YnhValidationError RunResult :=
  if b2n auto + b2n skip + b2n force_rerun > 1 then
    .error .migrationsExclusiveOptions
  else
    match selectTargets all targets skip force_rerun with
    | .error e => .error e
    | .ok resolved =>
      if resolved.isEmpty then
        .ok { log := { initRunLog all stateFile with events := [.noMigrationsToRun] }
              nothingToDo := true }
      else
        match runLoop all skip auto resolved (initRunLog all stateFile, accept_disclaimer) with
        | .error e => .error e
        | .ok acc => .ok { log := acc.1, nothingToDo := false }

/-- Concrete one-migration registry used to exercise the idempotence of a
second parameterless run. -/
def exIdemAll : List Migration :=
  [mkMigration "0001_a" {} "pending"]

/-- Result of the first parameterless run over `exIdemAll` with no
persisted file: the single pending migration runs and is marked done. -/
def exIdemRun : RunResult :=
  { log := { memStates := [("0001_a", "done")]
             stateFile := some { migrations := [("0001_a", "done")] }
             uow := [("0001_a", true)]
             executed := ["0001_a"]
             events := [.runningForward "0001_a", .successForward "0001_a"] }
    nothingToDo := false }

/-! ## Backup/rollback wrapper (`Migration.ldap_migration`)

The filesystem is a partial map from paths (component lists) to file
contents. Shell commands issued through `os.system` return an exit status
and never raise, so they do not alter control flow; their effects are:
* `rm -r DIR` removes every file under `DIR`;
* `cp -r --preserve SRC/. DST/` copies every file of the `SRC` subtree
  over `DST`, overwriting collisions and keeping `DST` files that have no
  counterpart under `SRC` (the backup-phase `cp -r SRC DST` with a fresh,
  empty `DST` has the same file-level effect).
The only statement of the backup phase that can raise is `os.makedirs`,
modelled by the `mkdirOk` flag. -/

/-- Filesystem paths, as component lists. -/
abbrev FsPath := List String

/-- A filesystem: partial map from file path to contents. -/
abbrev Fs := FsPath → Option String

/-- Effect of `rm -r dir`. -/
def rmTree (fs : Fs) (dir : FsPath) : Fs := fun p =>
  if dir.isPrefixOf p then none else fs p

/-- Effect of `cp -r --preserve src/. dst/` at the file level. -/
def cpInto (fs : Fs) (src dst : FsPath) : Fs := fun p =>
  if dst.isPrefixOf p then
    match fs (src ++ p.drop dst.length) with
    | some c => some c
    | none => fs p
  else fs p

/-- Machine state seen by the wrapper: the filesystem and whether the
`slapd` service is running (`systemctl stop/start slapd` toggle it). -/
structure SysWorld where
  fs : Fs
  slapdRunning : Bool

/-- The three directory trees the wrapper snapshots. -/
def etcLdap : FsPath := ["etc", "ldap"]

/-- The LDAP database tree. -/
def varLibLdap : FsPath := ["var", "lib", "ldap"]

/-- The app settings tree. -/
def appsSettings : FsPath := ["etc", "yunohost", "apps"]

/-- The one subtree the rollback erases before copying the backup back. -/
def slapdDDir : FsPath := ["etc", "ldap", "slapd.d"]

/-- The timestamp-named backup location
`/home/yunohost.backup/premigration/<timestamp>`. -/
def backupFolder (ts : String) : FsPath :=
  ["home", "yunohost.backup", "premigration", ts]

/-- Filesystem after the backup phase: the three trees copied into the
backup folder. -/
def afterBackupFs (ts : String) (fs : Fs) : Fs :=
  cpInto
    (cpInto
      (cpInto fs etcLdap (backupFolder ts ++ ["ldap_config"]))
      varLibLdap (backupFolder ts ++ ["ldap_db"]))
    appsSettings (backupFolder ts ++ ["apps_settings"])

/-- World handed to the wrapped body: backup taken, service restarted by
the `finally` clause. -/
def afterBackup (ts : String) (w0 : SysWorld) : SysWorld :=
  { fs := afterBackupFs ts w0.fs, slapdRunning := true }

/-- Filesystem after the rollback sequence run by the `except` handler:
erase `/etc/ldap/slapd.d`, copy the three backups back over the live
trees, delete the backup folder. -/
def rollbackFs (ts : String) (fs : Fs) : Fs :=
  rmTree
    (cpInto
      (cpInto
        (cpInto (rmTree fs slapdDDir)
          (backupFolder ts ++ ["ldap_config"]) etcLdap)
        (backupFolder ts ++ ["ldap_db"]) varLibLdap)
      (backupFolder ts ++ ["apps_settings"]) appsSettings)
    (backupFolder ts)

/-- Outcome of the wrapped migration: normal return, the backup-phase
`YunohostError`, or the body's original error re-raised after rollback. -/
inductive LdapMigResult where
  | ok (w : SysWorld)
  | backupError (w : SysWorld)
  | bodyError (e : String) (w : SysWorld)

/-- World left behind by the wrapper on each outcome. -/
def LdapMigResult.world : LdapMigResult → SysWorld
  | .ok w => w
  | .backupError w => w
  | .bodyError _ w => w

/-- The error a result re-raises, when any. -/
def LdapMigResult.raisedError : LdapMigResult → Option String
  | .bodyError e _ => some e
  | _ => none

/-- `Migration.ldap_migration`: take the backup (restarting `slapd` in the
`finally` clause whether or not the phase raised), invoke the body with
the backup folder; on success delete the backup folder; on a raised error
stop the service, erase `/etc/ldap/slapd.d`, copy the backup back over the
three trees, restart the service, delete the backup folder and re-raise
the original error. The body is `body bf w = (w', none)` for a normal
return and `(w', some e)` when it raises `e` after mutating the world to
`w'`. -/
def ldap_migration (mkdirOk : Bool) (ts : String)
    (body : FsPath → SysWorld → SysWorld × Option String)
    (w0 : SysWorld) : LdapMigResult :=
  if !mkdirOk then
    .backupError { w0 with slapdRunning := true }
  else
    match body (backupFolder ts) (afterBackup ts w0) with
    | (w2, none) =>
        .ok { w2 with fs := rmTree w2.fs (backupFolder ts) }
    | (w2, some e) =>
        .bodyError e { fs := rollbackFs ts w2.fs, slapdRunning := true }

end YnhMigrations

deriving instance DecidableEq for Except

namespace YnhMigrations

/-! ## Helper lemmas: association-list store -/

theorem lookupState_setKey_self (l : List (String × String)) (k v : String) :
    lookupState (setKey l k v) k = some v := by
  induction l with
  | nil => simp [setKey, lookupState, List.find?]
  | cons e rest ih =>
    rcases e with ⟨k1, v1⟩
    by_cases h : k1 = k
    · subst h
      simp [setKey, lookupState, List.find?]
    · have hk1 : (k1 == k) = false := beq_eq_false_iff_ne.mpr h
      simp only [setKey, hk1, Bool.false_eq_true, if_false]
      simpa [lookupState, List.find?, hk1] using ih

theorem lookupState_setKey_ne (l : List (String × String)) (k v k2 : String)
    (h : k2 ≠ k) :
    lookupState (setKey l k v) k2 = lookupState l k2 := by
  have hk : (k == k2) = false := beq_eq_false_iff_ne.mpr (Ne.symm h)
  induction l with
  | nil => simp [setKey, lookupState, List.find?, hk]
  | cons e rest ih =>
    rcases e with ⟨k1, v1⟩
    by_cases h1 : k1 = k
    · subst h1
      simp [setKey, lookupState, List.find?, hk]
    · have hk1 : (k1 == k) = false := beq_eq_false_iff_ne.mpr h1
      by_cases h2 : k1 = k2
      · subst h2
        simp [setKey, lookupState, List.find?, hk1]
      · have hk2 : (k1 == k2) = false := beq_eq_false_iff_ne.mpr h2
        simp only [setKey, hk1, Bool.false_eq_true, if_false]
        simpa [lookupState, List.find?, hk1, hk2] using ih

/-! ## C8: state-store read-modify-write -/

/-- C8: for every persisted state mapping and every (migration id, state)
pair, `_write_migration_state` performs a read-modify-write: afterwards the
persisted mapping has the given id mapped to the given state, and every
other entry that was in the persisted file immediately before the write is
preserved unchanged. -/
theorem write_migration_state_read_modify_write (file : Option StateFile)
    (id st : String) :
    lookupState (_write_migration_state file id st).migrations id = some st ∧
    ∀ id2, id2 ≠ id →
      lookupState (_write_migration_state file id st).migrations id2 =
        lookupState (tools_migrations_state file).migrations id2 := by
  constructor
  · simpa [_write_migration_state] using
      lookupState_setKey_self (tools_migrations_state file).migrations id st
  · intro id2 h2
    simpa [_write_migration_state] using
      lookupState_setKey_ne (tools_migrations_state file).migrations id st id2 h2

/-- Witness for C8 at a concrete store: writing `0002_b ↦ skipped` records
that entry and leaves the pre-existing `0001_a ↦ done` entry unchanged. -/
theorem write_migration_state_read_modify_write_witness :
    lookupState (_write_migration_state (some { migrations := [("0001_a", "done")] })
        "0002_b" "skipped").migrations "0002_b" = some "skipped" ∧
    lookupState (_write_migration_state (some { migrations := [("0001_a", "done")] })
        "0002_b" "skipped").migrations "0001_a" =
      lookupState (tools_migrations_state
        (some { migrations := [("0001_a", "done")] })).migrations "0001_a" :=
  ⟨(write_migration_state_read_modify_write
      (some { migrations := [("0001_a", "done")] }) "0002_b" "skipped").1,
   (write_migration_state_read_modify_write
      (some { migrations := [("0001_a", "done")] }) "0002_b" "skipped").2
      "0001_a" (by decide)⟩

/-! ## C10: listing filters and the pending/done conflict -/

/-- C10: `tools_migrations_list` raises the conflict validation error
exactly on `pending ∧ done`; with at most one flag set it returns the
listing, the `done` filter keeping every migration whose state is not
`pending` (so skipped migrations are included) and the `pending` filter
keeping exactly the pending ones. -/
theorem migrations_list_conflict_and_filters (migs : List Migration)
    (pending done : Bool) :
    (pending = true → done = true →
      tools_migrations_list migs pending done =
        .error .migrationsListConflictPendingDone) ∧
    (pending = false ∨ done = false →
      tools_migrations_list migs pending done =
        .ok (if done then (migs.map toDict).filter (fun m => m.state != "pending")
             else if pending then (migs.map toDict).filter (fun m => m.state == "pending")
             else migs.map toDict)) := by
  cases pending <;> cases done <;> simp [tools_migrations_list]

/-- Witness for C10: on a registry holding one done, one skipped and one
pending migration, `done=True` lists the done and the skipped ones. -/
theorem migrations_list_conflict_and_filters_witness :
    tools_migrations_list
      [mkMigration "0001_a" {} "done", mkMigration "0002_b" {} "skipped",
       mkMigration "0003_c" {} "pending"] false true =
    .ok [toDict (mkMigration "0001_a" {} "done"),
         toDict (mkMigration "0002_b" {} "skipped")] := by
  have h := (migrations_list_conflict_and_filters
    [mkMigration "0001_a" {} "done", mkMigration "0002_b" {} "skipped",
     mkMigration "0003_c" {} "pending"] false true).2 (Or.inl rfl)
  rw [h]
  decide

/-! ## C1: ordering of the registry listing -/

theorem charListLe_total (as bs : List Char) :
    charListLe as bs = true ∨ charListLe bs as = true := by
  induction as generalizing bs with
  | nil => exact Or.inl rfl
  | cons a as ih =>
    cases bs with
    | nil => exact Or.inr rfl
    | cons b bs =>
      rcases lt_trichotomy a b with hab | hab | hab
      · exact Or.inl (by simp [charListLe, hab])
      · subst hab
        rcases ih bs with h | h
        · exact Or.inl (by simp [charListLe, h])
        · exact Or.inr (by simp [charListLe, h])
      · exact Or.inr (by simp [charListLe, hab])

theorem charListLe_trans (as bs cs : List Char)
    (h1 : charListLe as bs = true) (h2 : charListLe bs cs = true) :
    charListLe as cs = true := by
  induction as generalizing bs cs with
  | nil => rfl
  | cons a as ih =>
    cases bs with
    | nil => exact absurd h1 (by simp [charListLe])
    | cons b bs =>
      cases cs with
      | nil => exact absurd h2 (by simp [charListLe])
      | cons c cs =>
        simp only [charListLe] at h1 h2 ⊢
        rcases lt_trichotomy a b with hab | hab | hab
        · rcases lt_trichotomy b c with hbc | hbc | hbc
          · rw [if_pos (lt_trans hab hbc)]
          · subst hbc
            rw [if_pos hab]
          · rw [if_neg (lt_asymm hbc), if_pos hbc] at h2
            exact absurd h2 (by decide)
        · subst hab
          rw [if_neg (lt_irrefl a), if_neg (lt_irrefl a)] at h1
          rcases lt_trichotomy a c with hac | hac | hac
          · rw [if_pos hac]
          · subst hac
            rw [if_neg (lt_irrefl a), if_neg (lt_irrefl a)] at h2 ⊢
            exact ih bs cs h1 h2
          · rw [if_neg (lt_asymm hac), if_pos hac] at h2
            exact absurd h2 (by decide)
        · rw [if_neg (lt_asymm hab), if_pos hab] at h1
          exact absurd h1 (by decide)

instance : IsTotal Migration migIdLe :=
  ⟨fun a b => charListLe_total a.id.data b.id.data⟩

instance : IsTrans Migration migIdLe :=
  ⟨fun a b c hab hbc => charListLe_trans a.id.data b.id.data c.id.data hab hbc⟩

/-- C1 counterexample: with discovered files `2_a.py` and `10_b.py`, the
listing returned by `_get_migrations_list` has ordinals `[10, 2]`, which is
not ascending — the registry does not sort by the integer ordinal. -/
theorem migrations_list_not_sorted_by_ordinal :
    ((_get_migrations_list [("2_a.py", {}), ("10_b.py", {})] none).map
        (fun m => m.number)) = [10, 2] ∧
    ¬ List.Sorted (· ≤ ·)
      ((_get_migrations_list [("2_a.py", {}), ("10_b.py", {})] none).map
        (fun m => m.number)) := by
  constructor
  · rfl
  · intro h
    have h10 : (10 : Nat) ≤ 2 := by
      have := h
      rw [show ((_get_migrations_list [("2_a.py", {}), ("10_b.py", {})] none).map
          (fun m => m.number)) = [10, 2] from rfl] at this
      exact List.rel_of_sorted_cons this 2 (by simp)
    omega

/-- C1 amended: `_get_migrations_list` returns the migrations sorted in
ascending lexicographic order of their id strings (`sorted(..., key=m.id)`);
this coincides with ascending integer ordinal only when the numeric
prefixes are zero-padded to equal width. -/
theorem migrations_list_sorted_by_id (files : List (String × MigAttrs))
    (stateFile : Option StateFile) :
    List.Sorted migIdLe (_get_migrations_list files stateFile) := by
  unfold _get_migrations_list
  exact List.sorted_insertionSort migIdLe _

/-! ## C3: target resolution -/

theorem get_matching_migration_cons (m0 : Migration) (rest : List Migration)
    (target : String) :
    get_matching_migration (m0 :: rest) target =
      if matchesTarget m0 target then .ok m0
      else get_matching_migration rest target := by
  unfold get_matching_migration
  by_cases h : matchesTarget m0 target
  · rw [if_pos h,
      @List.find?_cons_of_pos _ (fun m => matchesTarget m target) m0 rest h]
  · rw [if_neg h,
      @List.find?_cons_of_neg _ (fun m => matchesTarget m target) m0 rest
        (by simpa using h)]

/-- C3 counterexample: with two migrations `0001_foo` and `0002_foo`, the
target `"foo"` matches both by name, yet `get_matching_migration` does not
raise: it returns the first match. The claim predicts a "no such
migration" error whenever more than one migration matches. -/
theorem get_matching_migration_ambiguous_returns_first :
    (([mkMigration "0001_foo" {} "pending",
       mkMigration "0002_foo" {} "pending"]).countP
        (fun m => matchesTarget m "foo")) = 2 ∧
    get_matching_migration
      [mkMigration "0001_foo" {} "pending", mkMigration "0002_foo" {} "pending"]
      "foo" = .ok (mkMigration "0001_foo" {} "pending") := by
  constructor
  · decide
  · rfl

/-- C3 amended: `get_matching_migration` raises the "no such migration"
error exactly when the target matches zero migrations by id, name or
ordinal string; when at least one matches (even ambiguously), it returns
the first matching migration in list order. -/
theorem get_matching_migration_first_match (all : List Migration)
    (target : String) :
    (get_matching_migration all target =
        .error (.migrationsNoSuchMigration target) ↔
      ∀ m ∈ all, matchesTarget m target = false) ∧
    (∀ m, get_matching_migration all target = .ok m →
      ∃ pre post, all = pre ++ m :: post ∧ matchesTarget m target = true ∧
        ∀ m2 ∈ pre, matchesTarget m2 target = false) := by
  induction all with
  | nil =>
    constructor
    · simp [get_matching_migration, List.find?]
    · intro m hm
      simp [get_matching_migration, List.find?] at hm
  | cons m0 rest ih =>
    rw [get_matching_migration_cons]
    by_cases h : matchesTarget m0 target
    · rw [if_pos h]
      constructor
      · constructor
        · intro habs
          exact absurd habs (by simp)
        · intro hall
          exact absurd h (by simp [hall m0 (List.mem_cons_self m0 rest)])
      · intro m hm
        have hm0 : m = m0 := by
          have := hm
          simp only [Except.ok.injEq] at this
          exact this.symm
        subst hm0
        exact ⟨[], rest, rfl, h, by simp⟩
    · rw [if_neg h]
      have hb : matchesTarget m0 target = false := by simpa using h
      constructor
      · rw [ih.1]
        constructor
        · intro hall m hm
          rcases List.mem_cons.mp hm with hm | hm
          · subst hm; exact hb
          · exact hall m hm
        · intro hall m hm
          exact hall m (List.mem_cons_of_mem m0 hm)
      · intro m hm
        obtain ⟨pre, post, heq, hmt, hpre⟩ := ih.2 m hm
        refine ⟨m0 :: pre, post, by rw [heq, List.cons_append], hmt, ?_⟩
        intro m2 hm2
        rcases List.mem_cons.mp hm2 with hm2 | hm2
        · subst hm2; exact hb
        · exact hpre m2 hm2

/-- Witness for C3 amended: a target matching nothing yields the error, by
the zero-match characterization. -/
theorem get_matching_migration_first_match_witness :
    get_matching_migration [mkMigration "0001_bar" {} "pending"] "nope" =
      .error (.migrationsNoSuchMigration "nope") :=
  (get_matching_migration_first_match [mkMigration "0001_bar" {} "pending"]
    "nope").1.mpr (by decide)

/-! ## Helper lemmas: filesystem operations of the wrapper -/

theorem isPrefixOf_append_left (l r : List String) :
    l.isPrefixOf (l ++ r) = true := by
  induction l with
  | nil => simp [List.isPrefixOf]
  | cons a l ih => simp [List.isPrefixOf, ih]

theorem afterBackupFs_at_config (ts : String) (fs : Fs) (r : List String)
    (c : String) (h : fs (etcLdap ++ r) = some c) :
    afterBackupFs ts fs (backupFolder ts ++ ["ldap_config"] ++ r) = some c := by
  simp [afterBackupFs, cpInto, backupFolder, etcLdap, varLibLdap, appsSettings,
    List.isPrefixOf, h] at h ⊢

theorem afterBackupFs_at_db (ts : String) (fs : Fs) (r : List String)
    (c : String) (h : fs (varLibLdap ++ r) = some c) :
    afterBackupFs ts fs (backupFolder ts ++ ["ldap_db"] ++ r) = some c := by
  simp [afterBackupFs, cpInto, backupFolder, etcLdap, varLibLdap, appsSettings,
    List.isPrefixOf, h] at h ⊢

theorem afterBackupFs_at_apps (ts : String) (fs : Fs) (r : List String)
    (c : String) (h : fs (appsSettings ++ r) = some c) :
    afterBackupFs ts fs (backupFolder ts ++ ["apps_settings"] ++ r) = some c := by
  simp [afterBackupFs, cpInto, backupFolder, etcLdap, varLibLdap, appsSettings,
    List.isPrefixOf, h] at h ⊢

theorem rollbackFs_at_etc (ts : String) (fs2 : Fs) (r : List String)
    (c : String) (h : fs2 (backupFolder ts ++ ["ldap_config"] ++ r) = some c) :
    rollbackFs ts fs2 (etcLdap ++ r) = some c := by
  simp [rollbackFs, cpInto, rmTree, backupFolder, etcLdap, varLibLdap,
    appsSettings, slapdDDir, List.isPrefixOf, h] at h ⊢

theorem rollbackFs_at_var (ts : String) (fs2 : Fs) (r : List String)
    (c : String) (h : fs2 (backupFolder ts ++ ["ldap_db"] ++ r) = some c) :
    rollbackFs ts fs2 (varLibLdap ++ r) = some c := by
  simp [rollbackFs, cpInto, rmTree, backupFolder, etcLdap, varLibLdap,
    appsSettings, slapdDDir, List.isPrefixOf, h] at h ⊢

theorem rollbackFs_at_apps (ts : String) (fs2 : Fs) (r : List String)
    (c : String) (h : fs2 (backupFolder ts ++ ["apps_settings"] ++ r) = some c) :
    rollbackFs ts fs2 (appsSettings ++ r) = some c := by
  simp [rollbackFs, cpInto, rmTree, backupFolder, etcLdap, varLibLdap,
    appsSettings, slapdDDir, List.isPrefixOf, h] at h ⊢

theorem rollbackFs_deletes_backup (ts : String) (fs2 : Fs) (p : FsPath)
    (h : (backupFolder ts).isPrefixOf p = true) :
    rollbackFs ts fs2 p = none := by
  simp [rollbackFs, rmTree, h]

/-! ## C2: rollback is not byte-identical restoration -/

/-- C2 counterexample: a body that creates `/var/lib/ldap/junk` and then
raises `"boom"`. The wrapper takes the rollback path and re-raises the
error, but the created file survives the rollback (only
`/etc/ldap/slapd.d` is erased, and copying the backup back over the trees
does not remove files the body added), so the watched tree is not
byte-identical to its pre-migration contents. -/
theorem ldap_rollback_not_byte_identical :
    (ldap_migration true "20250101-000000"
        (fun _ w =>
          ({ w with fs := fun p =>
              if p = ["var", "lib", "ldap", "junk"] then some "junk" else w.fs p },
           some "boom"))
        { fs := fun p => if p = ["var", "lib", "ldap", "data"] then some "old" else none,
          slapdRunning := true }).raisedError = some "boom" ∧
    (ldap_migration true "20250101-000000"
        (fun _ w =>
          ({ w with fs := fun p =>
              if p = ["var", "lib", "ldap", "junk"] then some "junk" else w.fs p },
           some "boom"))
        { fs := fun p => if p = ["var", "lib", "ldap", "data"] then some "old" else none,
          slapdRunning := true }).world.fs ["var", "lib", "ldap", "junk"] = some "junk" ∧
    (fun p => if p = ["var", "lib", "ldap", "data"] then some "old" else (none : Option String))
      ["var", "lib", "ldap", "junk"] = none := by
  refine ⟨rfl, ?_, rfl⟩
  simp [ldap_migration, LdapMigResult.world, afterBackup, afterBackupFs, rollbackFs,
    cpInto, rmTree, backupFolder, etcLdap, varLibLdap, appsSettings, slapdDDir,
    List.isPrefixOf]

/-- C2 amended: when the wrapped body raises after mutating the watched
trees (and leaves the backup location intact), the wrapper stops and then
restarts the service, erases only the `/etc/ldap/slapd.d` subtree, copies
the backup back over the three watched trees without first clearing them,
deletes the backup location, and re-raises the original error unchanged.
Every file that existed in a watched tree before the migration is restored
to its pre-migration content, but files the body created elsewhere in the
watched trees may survive. -/
theorem ldap_migration_rollback_restores (ts : String)
    (body : FsPath → SysWorld → SysWorld × Option String) (w0 : SysWorld)
    (e : String) (w2 : SysWorld)
    (hbody : body (backupFolder ts) (afterBackup ts w0) = (w2, some e))
    (hpres : ∀ p, (backupFolder ts).isPrefixOf p = true →
      w2.fs p = (afterBackup ts w0).fs p) :
    ldap_migration true ts body w0 =
      .bodyError e { fs := rollbackFs ts w2.fs, slapdRunning := true } ∧
    (∀ r c, w0.fs (etcLdap ++ r) = some c →
      rollbackFs ts w2.fs (etcLdap ++ r) = some c) ∧
    (∀ r c, w0.fs (varLibLdap ++ r) = some c →
      rollbackFs ts w2.fs (varLibLdap ++ r) = some c) ∧
    (∀ r c, w0.fs (appsSettings ++ r) = some c →
      rollbackFs ts w2.fs (appsSettings ++ r) = some c) ∧
    (∀ p, (backupFolder ts).isPrefixOf p = true → rollbackFs ts w2.fs p = none) := by
  refine ⟨?_, ?_, ?_, ?_, ?_⟩
  · simp [ldap_migration, hbody]
  · intro r c h0
    apply rollbackFs_at_etc
    rw [hpres _ (by rw [List.append_assoc]; exact isPrefixOf_append_left _ _)]
    exact afterBackupFs_at_config ts w0.fs r c h0
  · intro r c h0
    apply rollbackFs_at_var
    rw [hpres _ (by rw [List.append_assoc]; exact isPrefixOf_append_left _ _)]
    exact afterBackupFs_at_db ts w0.fs r c h0
  · intro r c h0
    apply rollbackFs_at_apps
    rw [hpres _ (by rw [List.append_assoc]; exact isPrefixOf_append_left _ _)]
    exact afterBackupFs_at_apps ts w0.fs r c h0
  · intro p hp
    exact rollbackFs_deletes_backup ts w2.fs p hp

/-- Witness for C2 amended: a body that raises without touching anything
leads to a rollback that restores the pre-existing `/etc/ldap/x` file. -/
theorem ldap_migration_rollback_restores_witness :
    rollbackFs "t0"
      (afterBackup "t0"
        { fs := fun p => if p = ["etc", "ldap", "x"] then some "conf" else none,
          slapdRunning := true }).fs
      (etcLdap ++ ["x"]) = some "conf" :=
  (ldap_migration_rollback_restores "t0" (fun _ w => (w, some "boom"))
      { fs := fun p => if p = ["etc", "ldap", "x"] then some "conf" else none,
        slapdRunning := true }
      "boom"
      (afterBackup "t0"
        { fs := fun p => if p = ["etc", "ldap", "x"] then some "conf" else none,
          slapdRunning := true })
      rfl (fun p _ => rfl)).2.1 ["x"] "conf" (by decide)

/-! ## C7: the service is started on every exit path -/

/-- C7: provided the wrapped body itself leaves the service flag as it
found it, `ldap_migration` never returns or raises with `slapd` stopped:
the backup phase restarts it in a `finally` clause (whether or not the
backup raised), and the rollback path issues a start after its stop.
Rollback copy commands go through `os.system`, which reports failure via
an exit status and never raises, so no error during rollback copying can
bypass the start. -/
theorem ldap_migration_service_started (mkdirOk : Bool) (ts : String)
    (body : FsPath → SysWorld → SysWorld × Option String) (w0 : SysWorld)
    (hbody : ∀ bf w, ((body bf w).1).slapdRunning = w.slapdRunning) :
    (ldap_migration mkdirOk ts body w0).world.slapdRunning = true := by
  cases mkdirOk with
  | false => rfl
  | true =>
    rw [ldap_migration]
    rcases hres : body (backupFolder ts) (afterBackup ts w0) with ⟨w2, oe⟩
    cases oe with
    | none =>
      have hw2 : w2.slapdRunning = true := by
        have h := hbody (backupFolder ts) (afterBackup ts w0)
        rw [hres] at h
        simpa [afterBackup] using h
      simp [hres, LdapMigResult.world, hw2]
    | some e => simp [hres, LdapMigResult.world]

/-- Witness for C7 at a body that returns normally and a world where the
service was initially stopped. -/
theorem ldap_migration_service_started_witness :
    (ldap_migration true "t1" (fun _ w => (w, none))
      { fs := fun _ => none, slapdRunning := false }).world.slapdRunning = true :=
  ldap_migration_service_started true "t1" (fun _ w => (w, none))
    { fs := fun _ => none, slapdRunning := false } (fun _ _ => rfl)

/-! ## C5: a failing migration body is caught per-migration -/

/-- C5: when the loop reaches a migration whose `run()` raises (gates
passed: not blocked by auto/manual, dependencies resolved with none
pending, disclaimer absent or accepted), the failure is caught in place:
no state entry is written for it (in-memory states and the persisted store
are unchanged), its unit of work is closed as failed, its body was
invoked, and the loop continues with the remaining targets instead of
propagating the exception. -/
theorem migrations_run_failure_caught (all : List Migration) (auto : Bool)
    (m : Migration) (rest : List Migration) (acc : RunLog × Bool)
    (deps : List Migration)
    (hmanual : (auto && m.mode == "manual") = false)
    (hdeps : m.dependencies.mapM (get_matching_migration all) = .ok deps)
    (hpend : deps.filter (fun d => getState acc.1 d.id == "pending") = [])
    (hdisc : disclaimerNonEmpty m = false ∨ acc.2 = true)
    (hfail : m.runOk = false) :
    runStep all false auto acc m =
      .ok ({ acc.1 with
              events := acc.1.events ++ [.runningForward m.id, .migrationHasFailed m.id]
              executed := acc.1.executed ++ [m.id]
              uow := acc.1.uow ++ [(m.id, false)] },
            if disclaimerNonEmpty m then false else acc.2) ∧
    runLoop all false auto (m :: rest) acc =
      runLoop all false auto rest
        ({ acc.1 with
            events := acc.1.events ++ [.runningForward m.id, .migrationHasFailed m.id]
            executed := acc.1.executed ++ [m.id]
            uow := acc.1.uow ++ [(m.id, false)] },
          if disclaimerNonEmpty m then false else acc.2) := by
  have hstep : runStep all false auto acc m =
      .ok ({ acc.1 with
              events := acc.1.events ++ [.runningForward m.id, .migrationHasFailed m.id]
              executed := acc.1.executed ++ [m.id]
              uow := acc.1.uow ++ [(m.id, false)] },
            if disclaimerNonEmpty m then false else acc.2) := by
    have hdeps2 : List.mapM.loop (get_matching_migration all) m.dependencies [] =
        Except.ok deps := hdeps
    have hpend2 : ∀ x ∈ deps, ¬ getState acc.1 x.id = "pending" := by
      intro x hx
      have hx2 := List.filter_eq_nil_iff.mp hpend x hx
      simpa using hx2
    rcases hdisc with hd | ha
    · simp [runStep, hmanual, hdeps, hdeps2, hpend, hpend2, hd, doRun, hfail]
    · simp [runStep, hmanual, hdeps, hdeps2, hpend, hpend2, ha, doRun, hfail]
  exact ⟨hstep, by rw [runLoop, hstep]⟩

/-- Witness for C5: one pending migration whose body raises; its run is
recorded as a failed unit of work and nothing is persisted. -/
theorem migrations_run_failure_caught_witness :
    runStep [mkMigration "0001_a" { runOk := false } "pending"] false false
      (initRunLog [mkMigration "0001_a" { runOk := false } "pending"] none, false)
      (mkMigration "0001_a" { runOk := false } "pending") =
    .ok ({ (initRunLog [mkMigration "0001_a" { runOk := false } "pending"] none) with
            events := (initRunLog [mkMigration "0001_a" { runOk := false } "pending"]
                none).events ++
              [.runningForward "0001_a", .migrationHasFailed "0001_a"]
            executed := (initRunLog [mkMigration "0001_a" { runOk := false } "pending"]
                none).executed ++ ["0001_a"]
            uow := (initRunLog [mkMigration "0001_a" { runOk := false } "pending"]
                none).uow ++ [("0001_a", false)] },
          if disclaimerNonEmpty (mkMigration "0001_a" { runOk := false } "pending")
          then false else false) :=
  (migrations_run_failure_caught [mkMigration "0001_a" { runOk := false } "pending"]
      false (mkMigration "0001_a" { runOk := false } "pending") []
      (initRunLog [mkMigration "0001_a" { runOk := false } "pending"] none, false) []
      (by decide) (by rfl) (by rfl) (Or.inl (by decide)) (by decide)).1

/-! ## C6: validation of explicit targets -/

theorem selectTargets_explicit (all : List Migration) (targets : List String)
    (skip force_rerun : Bool) (ts : List Migration)
    (hne : targets ≠ [])
    (hres : resolveTargets all targets = .ok ts) :
    selectTargets all targets skip force_rerun =
      validateExplicit skip force_rerun ts := by
  have hemp : targets.isEmpty = false := by
    cases targets with
    | nil => exact absurd rfl hne
    | cons t rest => rfl
  simp [selectTargets, hemp, hres]

/-- C6: with a non-empty, successfully resolved target list, the call
raises `migrations_not_pending_cant_skip` when `skip` is set and some
resolved target is not pending, `migrations_pending_cant_rerun` when
`force_rerun` is set and some resolved target is pending, and
`migrations_already_ran` when neither flag is set and some resolved target
is not pending. In each case the result is the validation error itself:
the run loop is never entered and nothing is executed or written. -/
theorem migrations_run_explicit_validation (all : List Migration)
    (stateFile : Option StateFile) (targets : List String)
    (skip auto force_rerun accept : Bool) (ts : List Migration)
    (hne : targets ≠ [])
    (hres : resolveTargets all targets = .ok ts)
    (hexcl : b2n auto + b2n skip + b2n force_rerun ≤ 1) :
    (skip = true → ts.filter (fun t => t.state != "pending") ≠ [] →
      tools_migrations_run all stateFile targets skip auto force_rerun accept =
        .error (.migrationsNotPendingCantSkip
          ((ts.filter (fun t => t.state != "pending")).map (fun t => t.id)))) ∧
    (force_rerun = true → ts.filter (fun t => t.state == "pending") ≠ [] →
      tools_migrations_run all stateFile targets skip auto force_rerun accept =
        .error (.migrationsPendingCantRerun
          ((ts.filter (fun t => t.state == "pending")).map (fun t => t.id)))) ∧
    (skip = false → force_rerun = false →
      ts.filter (fun t => t.state != "pending") ≠ [] →
      tools_migrations_run all stateFile targets skip auto force_rerun accept =
        .error (.migrationsAlreadyRan
          ((ts.filter (fun t => t.state != "pending")).map (fun t => t.id)))) := by
  refine ⟨?_, ?_, ?_⟩
  · intro hskip hdone
    subst hskip
    have hauto : auto = false := by
      cases auto
      · rfl
      · cases force_rerun <;> simp [b2n] at hexcl
    subst hauto
    have hfr : force_rerun = false := by
      cases force_rerun
      · rfl
      · simp [b2n] at hexcl
    subst hfr
    rw [tools_migrations_run, if_neg (by simp [b2n]),
      selectTargets_explicit all targets true false ts hne hres]
    simp [validateExplicit, hdone]
  · intro hfr hpend
    subst hfr
    have hauto : auto = false := by
      cases auto
      · rfl
      · cases skip <;> simp [b2n] at hexcl
    subst hauto
    have hskip : skip = false := by
      cases skip
      · rfl
      · simp [b2n] at hexcl
    subst hskip
    rw [tools_migrations_run, if_neg (by simp [b2n]),
      selectTargets_explicit all targets false true ts hne hres]
    simp [validateExplicit, hpend]
  · intro hskip hfr hdone
    subst hskip
    subst hfr
    cases auto with
    | false =>
      rw [tools_migrations_run, if_neg (by simp [b2n]),
        selectTargets_explicit all targets false false ts hne hres]
      simp [validateExplicit, hdone]
    | true =>
      rw [tools_migrations_run, if_neg (by simp [b2n]),
        selectTargets_explicit all targets false false ts hne hres]
      simp [validateExplicit, hdone]

/-- Witness for C6: skipping an already-done migration is rejected with the
dedicated validation error. -/
theorem migrations_run_explicit_validation_witness :
    tools_migrations_run [mkMigration "0001_a" {} "done"] none ["0001_a"]
      true false false false =
    .error (.migrationsNotPendingCantSkip ["0001_a"]) := by
  have h := (migrations_run_explicit_validation [mkMigration "0001_a" {} "done"]
    none ["0001_a"] true false false false [mkMigration "0001_a" {} "done"]
    (by decide) rfl (by decide)).1 rfl (by decide)
  simpa using h

/-! ## C4: the disclaimer acceptance is single-use -/

theorem runLoop_disclaimers_locked (all : List Migration) (auto : Bool)
    (ms : List Migration) (s : RunLog)
    (hall : ∀ m ∈ ms, disclaimerNonEmpty m = true ∧ m.dependencies = [] ∧
      (auto && m.mode == "manual") = false) :
    runLoop all false auto ms (s, false) =
      .ok ({ s with events :=
        s.events ++ ms.map (fun m => LogEvent.needToAcceptDisclaimer m.id) }, false) := by
  induction ms generalizing s with
  | nil => simp [runLoop]
  | cons m rest ih =>
    obtain ⟨hd, hdep, hman⟩ := hall m (List.mem_cons_self m rest)
    have hnil : List.mapM.loop (get_matching_migration all) ([] : List String) [] =
        Except.ok [] := rfl
    have hstep : runStep all false auto (s, false) m =
        .ok ({ s with events :=
          s.events ++ [LogEvent.needToAcceptDisclaimer m.id] }, false) := by
      simp [runStep, hman, hdep, hd, hnil]
    rw [runLoop, hstep]
    dsimp only
    rw [ih _ (fun m2 hm2 => hall m2 (List.mem_cons_of_mem m hm2))]
    simp

/-- C4: invoking the run with `accept_disclaimer=True` against a first
target carrying a non-empty disclaimer followed by further
disclaimer-carrying targets (none with dependencies, `skip` unset): only
the first target's body is invoked (whether it succeeds or raises); every
subsequent target is warned `migrations_need_to_accept_disclaimer` and is
neither executed nor has its persisted state entry changed. -/
theorem migrations_run_disclaimer_single_use (all : List Migration)
    (stateFile : Option StateFile) (targets : List String)
    (m1 : Migration) (rest : List Migration)
    (hsel : selectTargets all targets false false = .ok (m1 :: rest))
    (hm1 : disclaimerNonEmpty m1 = true) (hm1dep : m1.dependencies = [])
    (hrest : ∀ m ∈ rest, disclaimerNonEmpty m = true ∧ m.dependencies = []) :
    ∃ r, tools_migrations_run all stateFile targets false false false true = .ok r ∧
      r.log.executed = [m1.id] ∧
      (∀ m ∈ rest, LogEvent.needToAcceptDisclaimer m.id ∈ r.log.events) ∧
      (∀ id2, id2 ≠ m1.id →
        fileLookup r.log.stateFile id2 = fileLookup stateFile id2) := by
  have hstep : runStep all false false (initRunLog all stateFile, true) m1 =
      .ok (doRun (initRunLog all stateFile) m1, false) := by
    have hnil : List.mapM.loop (get_matching_migration all) ([] : List String) [] =
        Except.ok [] := rfl
    simp [runStep, hm1dep, hm1, hnil]
  have hloop := runLoop_disclaimers_locked all false rest
    (doRun (initRunLog all stateFile) m1)
    (fun m hm => ⟨(hrest m hm).1, (hrest m hm).2, by simp⟩)
  refine ⟨{ log := { doRun (initRunLog all stateFile) m1 with
              events := (doRun (initRunLog all stateFile) m1).events ++
                rest.map (fun m => LogEvent.needToAcceptDisclaimer m.id) }
            nothingToDo := false }, ?_, ?_, ?_, ?_⟩
  · rw [tools_migrations_run, if_neg (by simp [b2n]), hsel]
    simp only [List.isEmpty_cons, Bool.false_eq_true, if_false]
    rw [runLoop, hstep]
    dsimp only
    rw [hloop]
  · cases hrun : m1.runOk <;> simp [doRun, hrun, initRunLog]
  · intro m hm
    exact List.mem_append_right _ (List.mem_map_of_mem _ hm)
  · intro id2 hne
    cases hrun : m1.runOk with
    | true =>
      simp only [doRun, hrun, if_pos]
      simpa [fileLookup, _write_migration_state, tools_migrations_state, initRunLog] using
        lookupState_setKey_ne (tools_migrations_state stateFile).migrations
          m1.id "done" id2 hne
    | false =>
      simp [doRun, hrun, initRunLog]

/-- Witness for C4: two pending migrations both carrying disclaimers; the
accepted run executes only the first. -/
theorem migrations_run_disclaimer_single_use_witness :
    (tools_migrations_run
      [mkMigration "0001_a" { disclaimer := some "careful" } "pending",
       mkMigration "0002_b" { disclaimer := some "careful" } "pending"]
      none [] false false false true).map (fun r => r.log.executed) =
    .ok ["0001_a"] := by
  obtain ⟨r, hr, hexec, hwarn, hfile⟩ :=
    migrations_run_disclaimer_single_use
      [mkMigration "0001_a" { disclaimer := some "careful" } "pending",
       mkMigration "0002_b" { disclaimer := some "careful" } "pending"]
      none []
      (mkMigration "0001_a" { disclaimer := some "careful" } "pending")
      [mkMigration "0002_b" { disclaimer := some "careful" } "pending"]
      rfl (by decide) (by decide) (by decide)
  rw [hr]
  simp [Except.map, hexec, mkMigration]

/-! ## C9: a second parameterless run after full success is a no-op -/

theorem fileLookup_write_ne (f : Option StateFile) (id st id2 : String)
    (h : id2 ≠ id) :
    fileLookup (some (_write_migration_state f id st)) id2 = fileLookup f id2 := by
  simp only [fileLookup, tools_migrations_state, _write_migration_state]
  exact lookupState_setKey_ne (tools_migrations_state f).migrations id st id2 h

theorem runStep_stateFile_frame (all : List Migration) (skip auto : Bool)
    (acc : RunLog × Bool) (m : Migration) (acc2 : RunLog × Bool)
    (h : runStep all skip auto acc m = .ok acc2) (id2 : String)
    (hne : id2 ≠ m.id) :
    fileLookup acc2.1.stateFile id2 = fileLookup acc.1.stateFile id2 := by
  simp only [runStep] at h
  split at h
  · obtain rfl := Except.ok.inj h
    rfl
  · split at h
    · obtain rfl := Except.ok.inj h
      simp only [doSkip]
      exact fileLookup_write_ne acc.1.stateFile m.id "skipped" id2 hne
    · split at h
      · exact absurd h (by simp)
      · split at h
        · obtain rfl := Except.ok.inj h
          rfl
        · split at h
          · obtain rfl := Except.ok.inj h
            rfl
          · obtain rfl := Except.ok.inj h
            cases hrun : m.runOk with
            | true =>
              simp only [doRun, hrun, if_pos]
              exact fileLookup_write_ne acc.1.stateFile m.id "done" id2 hne
            | false =>
              simp only [doRun, hrun, Bool.false_eq_true, if_false]

theorem runLoop_stateFile_frame (all : List Migration) (skip auto : Bool)
    (ms : List Migration) (acc acc2 : RunLog × Bool)
    (h : runLoop all skip auto ms acc = .ok acc2) (id2 : String)
    (hni : ∀ m ∈ ms, id2 ≠ m.id) :
    fileLookup acc2.1.stateFile id2 = fileLookup acc.1.stateFile id2 := by
  induction ms generalizing acc with
  | nil =>
    rw [runLoop] at h
    obtain rfl := Except.ok.inj h
    rfl
  | cons m rest ih =>
    rw [runLoop] at h
    cases hstep : runStep all skip auto acc m with
    | error e =>
      rw [hstep] at h
      exact absurd h (by simp)
    | ok acc1 =>
      rw [hstep] at h
      dsimp only at h
      have h1 := runStep_stateFile_frame all skip auto acc m acc1 hstep id2
        (hni m (List.mem_cons_self m rest))
      have h2 := ih acc1 h (fun m2 hm2 => hni m2 (List.mem_cons_of_mem m hm2))
      rw [h2, h1]

/-- C9: after a parameterless run over a registry loaded from the store
(`hload`), in which every pending migration was marked done in the
persisted store (`hdone`), invoking the run again with no targets and no
flags over the reloaded registry is a no-op: the default target set is
empty, "nothing to do" is reported, no migration body runs, no unit of
work is opened, and the persisted store is returned unchanged. -/
theorem migrations_run_idempotent (all : List Migration)
    (stateFile : Option StateFile) (r : RunResult)
    (hnodup : (all.map (fun m => m.id)).Nodup)
    (hload : ∀ m ∈ all, m.state = (fileLookup stateFile m.id).getD "pending")
    (h1 : tools_migrations_run all stateFile [] false false false false = .ok r)
    (hdone : ∀ m ∈ all, m.state = "pending" →
      fileLookup r.log.stateFile m.id = some "done") :
    tools_migrations_run
      (all.map (fun m =>
        { m with state := (fileLookup r.log.stateFile m.id).getD "pending" }))
      r.log.stateFile [] false false false false =
    .ok { log := { initRunLog (all.map (fun m =>
            { m with state := (fileLookup r.log.stateFile m.id).getD "pending" }))
            r.log.stateFile with events := [LogEvent.noMigrationsToRun] }
          nothingToDo := true } := by
  rw [tools_migrations_run, if_neg (by decide)] at h1
  rw [show selectTargets all [] false false =
    .ok (all.filter (fun m => m.state == "pending")) from rfl] at h1
  dsimp only at h1
  have hframe : ∀ id2,
      (∀ m2 ∈ all.filter (fun m => m.state == "pending"), id2 ≠ m2.id) →
      fileLookup r.log.stateFile id2 = fileLookup stateFile id2 := by
    intro id2 hid
    by_cases hfil : (all.filter (fun m => m.state == "pending")).isEmpty = true
    · rw [if_pos hfil] at h1
      obtain rfl := Except.ok.inj h1
      rfl
    · rw [if_neg hfil] at h1
      cases hloop : runLoop all false false
          (all.filter (fun m => m.state == "pending"))
          (initRunLog all stateFile, false) with
      | error e =>
        rw [hloop] at h1
        exact absurd h1 (by simp)
      | ok acc =>
        rw [hloop] at h1
        dsimp only at h1
        obtain rfl := Except.ok.inj h1
        exact runLoop_stateFile_frame all false false _ _ acc hloop id2 hid
  have hnp : ∀ m ∈ all,
      ((fileLookup r.log.stateFile m.id).getD "pending") ≠ "pending" := by
    intro m hm
    by_cases hst : m.state = "pending"
    · rw [hdone m hm hst]
      simp
    · have hfl : fileLookup stateFile m.id = some m.state := by
        have hl := hload m hm
        cases hcase : fileLookup stateFile m.id with
        | none =>
          rw [hcase] at hl
          simp at hl
          exact absurd hl hst
        | some s =>
          rw [hcase] at hl
          simp at hl
          rw [hl]
      have hfr2 : fileLookup r.log.stateFile m.id = fileLookup stateFile m.id := by
        apply hframe
        intro m2 hm2 heq
        have hm2f := List.mem_filter.mp hm2
        have hmm : m = m2 :=
          List.inj_on_of_nodup_map hnodup hm hm2f.1 heq
        rw [hmm] at hst
        exact hst (by simpa using hm2f.2)
      rw [hfr2, hfl]
      simpa using hst
  have hfilter2 : (all.map (fun m =>
      { m with state := (fileLookup r.log.stateFile m.id).getD "pending" })).filter
        (fun m => m.state == "pending") = [] := by
    rw [List.filter_eq_nil_iff]
    intro a ha
    obtain ⟨m, hm, rfl⟩ := List.mem_map.mp ha
    simpa using hnp m hm
  rw [tools_migrations_run, if_neg (by decide)]
  rw [show selectTargets (all.map (fun m =>
      { m with state := (fileLookup r.log.stateFile m.id).getD "pending" }))
      [] false false =
    .ok ((all.map (fun m =>
      { m with state := (fileLookup r.log.stateFile m.id).getD "pending" })).filter
        (fun m => m.state == "pending")) from rfl]
  rw [hfilter2]
  rfl

/-- Witness for C9: one migration, first run marks it done, second
parameterless run reports nothing to do and leaves the store unchanged. -/
theorem migrations_run_idempotent_witness :
    tools_migrations_run
      (exIdemAll.map (fun m =>
        { m with state := (fileLookup exIdemRun.log.stateFile m.id).getD "pending" }))
      exIdemRun.log.stateFile [] false false false false =
    .ok { log := { initRunLog (exIdemAll.map (fun m =>
            { m with state := (fileLookup exIdemRun.log.stateFile m.id).getD "pending" }))
            exIdemRun.log.stateFile with events := [LogEvent.noMigrationsToRun] }
          nothingToDo := true } :=
  migrations_run_idempotent exIdemAll none exIdemRun (by decide) (by decide)
    (by rfl) (by decide)

end YnhMigrations
